import Mathlib

/-!
Verification development for the customer-tracking chatbot core
(`chatbot/bot/actions/customer_tracking_system.py` and
`chatbot/bot/actions/utils.py`).

The Python code is shallowly embedded: every definition below mirrors a
function or method of the source.  Entity streams are lists of tagged
`(entity, value)` string pairs; the mutable `current_group` dictionary of
the source is modelled as an insertion-ordered association list with
Python-dict semantics (overwrite keeps the position, fresh keys append);
the Rasa `dispatcher` is modelled as an accumulating list of message
strings; early `return False` is modelled with `Except`, the error branch
carrying the state at the moment of failure.

The external `word2number.w2n.word_to_num` library function (and Python's
`int`/`float` parsers, used by `Utils.word_to_number`) are not part of the
repository; they appear as explicit function parameters
(`w2n : String → Option Nat`, and the `WParsers` record), so every theorem
holds for an arbitrary parser unless it instantiates one concretely.
-/

set_option maxRecDepth 40000

/-- One recognized entity of a turn: the Python dict
`{"entity": ..., "value": ...}`. -/
structure Entity where
  entity : String
  value : String
deriving DecidableEq, Repr

/-- A value stored in the `current_group` dictionary: grouped kinds
(`passages`, `line`, `mark`) store a `(value, neg)` pair, every other kind
stores the plain entity value. -/
inductive DVal where
  | s : String → DVal
  | p : String → Bool → DVal
deriving DecidableEq, Repr

/-- The `current_group` dictionary, as an insertion-ordered association
list (Python 3.7+ dict semantics). -/
abbrev GDict := List (String × DVal)

/-- Python `key in d`. -/
def pmem (g : GDict) (k : String) : Bool :=
  g.any (fun e => e.fst == k)

/-- Python `d[key] = value`: overwriting keeps the original insertion
position, a fresh key is appended at the end. -/
def pset (g : GDict) (k : String) (v : DVal) : GDict :=
  if pmem g k then g.map (fun e => if e.fst == k then (k, v) else e)
  else g ++ [(k, v)]

/-- Python `del d[key]`. -/
def pdel (g : GDict) (k : String) : GDict :=
  g.filter (fun e => !(e.fst == k))

/-- Python `d[key]` (first — and only — binding of the key). -/
def pget (g : GDict) (k : String) : Option DVal :=
  (g.find? (fun e => e.fst == k)).map (fun e => e.snd)

/-- Reading a grouped entry `d[key]` as its `(value, neg)` tuple.  In every
reachable state the `passages`/`line`/`mark` keys hold pair values (they are
written only at the grouped-entity branch), so the `none` fallback for a
non-pair value is unreachable there. -/
def pgetPair (g : GDict) (k : String) : Option (String × Bool) :=
  match pget g k with
  | some (DVal.p v b) => some (v, b)
  | _ => none

/-- Python `sub in s` on strings: substring containment. -/
def pyIn (sub hay : String) : Bool :=
  (List.range (hay.data.length + 1)).any
    (fun i => sub.data.isPrefixOf (hay.data.drop i))

/-- Python `s.endswith(suf)`. -/
def pyEndsWith (s suf : String) : Bool :=
  suf.data.isSuffixOf s.data

/-- Helper for `pySplitHead`: the characters before the first occurrence
of the separator. -/
def splitHeadAux (sep : List Char) : List Char → List Char
  | [] => []
  | c :: rest =>
    if sep.isPrefixOf (c :: rest) then [] else c :: splitHeadAux sep rest

/-- Python `s.split(sep)[0]`: the part before the first occurrence of the
separator (the whole string when the separator does not occur). -/
def pySplitHead (s sep : String) : String :=
  ⟨splitHeadAux sep.data s.data⟩

/-- Python `s.lower()` (ASCII case folding, as used on the line names). -/
def pyLower (s : String) : String :=
  ⟨s.data.map Char.toLower⟩

/-- The clarification text of `Utils.adverb_to_number` (the f-string of
utils.py, lines 42 and 45), echoing the offending input. -/
def invalid_freq_msg (adverb : String) : String :=
  "My apologies! Please, provide a right frequency adverb in the format (once, twice, \x27number\x27 times). You provided me the following frequency adverb: " ++ adverb ++ "."

/-- `Utils.adverb_to_number` (utils.py, lines 6-46).  `w2n` stands for the
external `word2number.w2n.word_to_num` (its `ValueError` is `none`).
Returns the parsed count together with the messages uttered by the call. -/
def adverb_to_number (w2n : String → Option Nat) (adverb : String) :
    Option Nat × List String :=
  if adverb == "once" || adverb == "one time" then (some 1, [])
  else if adverb == "twice" then (some 2, [])
  else if pyEndsWith adverb " times" then
    match w2n (pySplitHead adverb " times") with
    | some n => (some n, [])
    | none => (none, [invalid_freq_msg adverb])
  else (none, [invalid_freq_msg adverb])

/-- The clarification text of `Utils.word_to_number` (utils.py, line 60). -/
def invalid_number_msg (word : String) : String :=
  "My apologies! Please, provide a right number. You provided me: " ++ word ++ "."

/-- The three external parsers tried in order by `Utils.word_to_number`:
Python `int(...)`, Python `float(...)` and `w2n.word_to_num`. -/
structure WParsers where
  pint : String → Option Int
  pfloat : String → Option Rat
  pw2n : String → Option Nat

/-- `Utils.word_to_number` (utils.py, lines 49-61): try integer, then
float, then cardinal-word parse; all failing yields an invalid-number
message and `none`. -/
def word_to_number (P : WParsers) (word : String) : Option Rat × List String :=
  match P.pint word with
  | some n => (some (n : Rat), [])
  | none =>
    match P.pfloat word with
    | some x => (some x, [])
    | none =>
      match P.pw2n word with
      | some n => (some (n : Rat), [])
      | none => (none, [invalid_number_msg word])

/-- The four configured line identifiers (`line_1` .. `line_4` of
`TrackingPeople.__init__`). -/
structure LineCfg where
  line_1 : String
  line_2 : String
  line_3 : String
  line_4 : String
deriving DecidableEq, Repr

/-- The instantiation used by `actions.py` (lines 25-28). -/
def defaultLines : LineCfg :=
  ⟨"alpha line", "beta line", "gamma line", "delta line"⟩

/-- `TrackingPeople.foi`, the field-of-interest map (customer_tracking_system.py,
lines 12-20).  A threshold field holds `(numeric bound, direction flag)`;
direction `true` is "at least", `false` is "less than". -/
structure Foi where
  gender : Option String
  bag : Option Bool
  hat : Option Bool
  line1_passages : Option (Nat × Bool)
  line2_passages : Option (Nat × Bool)
  line3_passages : Option (Nat × Bool)
  line4_passages : Option (Nat × Bool)
deriving DecidableEq, Repr

/-- The all-unset map produced by `TrackingPeople.__init__`. -/
def Foi.init : Foi := ⟨none, none, none, none, none, none, none⟩

/-- The running state of `TrackingPeople.update`: the field map, the
messages uttered so far, the `current_group` dictionary and `line_flag`. -/
structure USt where
  foi : Foi
  msgs : List String
  group : GDict
  line_flag : Bool
deriving DecidableEq, Repr

/-- The unknown-line clarification of `TrackingPeople.__update_line`
(customer_tracking_system.py, line 214). -/
def unknown_line_msg (c : LineCfg) (line : String) : String :=
  "My apologies! I don\x27t know if there is " ++ line ++ " in the shopping mall. I can only check the people passing through " ++ c.line_1 ++ ", " ++ c.line_2 ++ ", " ++ c.line_3 ++ ", and " ++ c.line_4 ++ "."

/-- The missing-line clarification of `TrackingPeople.__update_line`
(customer_tracking_system.py, line 217). -/
def point_msg (c : LineCfg) : String :=
  "My apologies! Please point me somewhere to check. Remember, I can only check the people passing through " ++ c.line_1 ++ ", " ++ c.line_2 ++ ", " ++ c.line_3 ++ ", and " ++ c.line_4 ++ "."

/-- The line-matching half of `TrackingPeople.__update_line`
(customer_tracking_system.py, lines 199-218), after the passage count has
been resolved to `passages` with polarity `negp`. -/
def update_line_core (c : LineCfg) (st : USt) (g : GDict)
    (passages : Nat) (negp : Bool) : Bool × USt :=
  match pgetPair g "line" with
  | some (line, negl) =>
    if pyLower line == c.line_1 then
      (true, {st with foi := {st.foi with line1_passages := some (passages, negp && negl)}})
    else if pyLower line == c.line_2 then
      (true, {st with foi := {st.foi with line2_passages := some (passages, negp && negl)}})
    else if pyLower line == c.line_3 then
      (true, {st with foi := {st.foi with line3_passages := some (passages, negp && negl)}})
    else if pyLower line == c.line_4 then
      (true, {st with foi := {st.foi with line4_passages := some (passages, negp && negl)}})
    else
      (false, {st with msgs := st.msgs ++ [unknown_line_msg c line]})
  | none => (false, {st with msgs := st.msgs ++ [point_msg c]})

/-- `TrackingPeople.__update_line` with `update=True`
(customer_tracking_system.py, lines 182-220): resolve the quantity (default
`(1, True)` when absent; a parse failure aborts after the normalizer's own
message), then match the line name case-insensitively. -/
def update_line (c : LineCfg) (w2n : String → Option Nat) (st : USt)
    (g : GDict) : Bool × USt :=
  match pgetPair g "passages" with
  | some (adv, negp) =>
    match adverb_to_number w2n adv with
    | (some n, ms) => update_line_core c {st with msgs := st.msgs ++ ms} g n negp
    | (none, ms) => (false, {st with msgs := st.msgs ++ ms})
  | none => update_line_core c st g 1 true

/-- `TrackingPeople.__update_clothing` (customer_tracking_system.py,
lines 222-239): polarity is the absence of a buffered negation; only the
values `hat`/`bag` write a field. -/
def update_clothing (g : GDict) (v : String) (foi : Foi) : Foi :=
  let neg := !(pmem g "negation")
  if v == "hat" then {foi with hat := some neg}
  else if v == "bag" then {foi with bag := some neg}
  else foi

/-- `TrackingPeople.__update_gender` (customer_tracking_system.py,
lines 241-257): affirmed polarity stores the value verbatim; negated
polarity stores `female` for `male` and `male` for anything else. -/
def update_gender (g : GDict) (v : String) (foi : Foi) : Foi :=
  let neg := !(pmem g "negation")
  {foi with gender := some (if neg then v else if v == "male" then "female" else "male")}

/-- Lines 55-77 of `TrackingPeople.update`: the grouped-entity branch
(repeated-key flush with negation carry-over, negation consumption, pair
insertion) and the non-grouped branch (deferred negation while grouping,
flush on a non-grouped entity, plain insertion). -/
def stepGrouping (c : LineCfg) (w2n : String → Option Nat) (st : USt)
    (k v : String) : Except USt USt :=
  if k == "passages" || k == "line" then
    let cont := fun (st : USt) =>
      let neg := !(pmem st.group "negation")
      let g1 := if !neg then pdel st.group "negation" else st.group
      Except.ok {st with line_flag := true, group := pset g1 k (DVal.p v neg)}
    if st.line_flag && pmem st.group k then
      match update_line c w2n st st.group with
      | (false, st') => Except.error st'
      | (true, st') =>
        let g' : GDict :=
          match st.group.getLast? with
          | some (key, value) => if key == "negation" then [(key, value)] else []
          | none => []
        cont {st' with group := g'}
    else cont st
  else
    if st.line_flag && k == "negation" then
      Except.ok {st with group := pset st.group k (DVal.s v)}
    else if st.line_flag && !(k == "negation") then
      match update_line c w2n st st.group with
      | (false, st') => Except.error st'
      | (true, st') =>
        Except.ok {st' with line_flag := false, group := pset ([] : GDict) k (DVal.s v)}
    else
      Except.ok {st with line_flag := false, group := pset st.group k (DVal.s v)}

/-- Lines 79-83 of `TrackingPeople.update`: eager flush as soon as the
buffer holds both a `passages` and a `line` entry. -/
def stepEager (c : LineCfg) (w2n : String → Option Nat) (st : USt) :
    Except USt USt :=
  if pmem st.group "passages" && pmem st.group "line" then
    match update_line c w2n st st.group with
    | (false, st') => Except.error st'
    | (true, st') => Except.ok {st' with group := [], line_flag := false}
  else Except.ok st

/-- Whether an entity key dispatches to a standalone resolve: Python
`"clothing" in entity_key` / `"gender" in entity_key` (substring tests). -/
def standalone_key (k : String) : Bool :=
  pyIn "clothing" k || pyIn "gender" k

/-- Lines 85-93 of `TrackingPeople.update`: standalone clothing/gender
resolve (only when not grouping), consuming the buffer as its negation
scope and then clearing it. -/
def stepStandalone (st : USt) (k v : String) : USt :=
  if !st.line_flag then
    if pyIn "clothing" k then
      {st with foi := update_clothing st.group v st.foi, group := []}
    else if pyIn "gender" k then
      {st with foi := update_gender st.group v st.foi, group := []}
    else st
  else st

/-- One iteration of the entity loop of `TrackingPeople.update`
(lines 50-93). -/
def updateStep (c : LineCfg) (w2n : String → Option Nat) (st : USt)
    (e : Entity) : Except USt USt :=
  match stepGrouping c w2n st e.entity e.value with
  | Except.error st' => Except.error st'
  | Except.ok st1 =>
    match stepEager c w2n st1 with
    | Except.error st' => Except.error st'
    | Except.ok st2 => Except.ok (stepStandalone st2 e.entity e.value)

/-- The entity loop of `TrackingPeople.update` plus the end-of-stream
flush of a non-empty buffer (lines 95-102). -/
def updateGo (c : LineCfg) (w2n : String → Option Nat) (st : USt) :
    List Entity → Except USt USt
  | [] =>
    if st.group.isEmpty then Except.ok st
    else
      match update_line c w2n st st.group with
      | (false, st') => Except.error st'
      | (true, st') => Except.ok {st' with group := [], line_flag := false}
  | e :: rest =>
    match updateStep c w2n st e with
    | Except.error st' => Except.error st'
    | Except.ok st' => updateGo c w2n st' rest

/-- `TrackingPeople.update` (customer_tracking_system.py, lines 25-102):
returns the success flag, the final field-of-interest map and the uttered
messages, starting from the prior map `foi₀`. -/
def update (c : LineCfg) (w2n : String → Option Nat)
    (entities : List Entity) (foi₀ : Foi) : Bool × Foi × List String :=
  match updateGo c w2n ⟨foi₀, [], [], false⟩ entities with
  | Except.ok st => (true, st.foi, st.msgs)
  | Except.error st => (false, st.foi, st.msgs)

/-- A concrete stand-in for `w2n.word_to_num` used only to instantiate
witnesses (it accepts digit strings, as the library does). -/
def w2nDigits (s : String) : Option Nat :=
  if s.data ≠ [] ∧ s.data.all Char.isDigit then
    some (s.data.foldl (fun n c => 10 * n + (c.toNat - 48)) 0)
  else none

/-- `TrackingGroups.foi` (customer_tracking_system.py, lines 264-266): the
single score-threshold field. -/
structure GFoi where
  score : Option (Rat × Bool)
deriving DecidableEq, Repr

/-- The all-unset map produced by `TrackingGroups.__init__`. -/
def GFoi.init : GFoi := ⟨none⟩

/-- The running state of `TrackingGroups.update`. -/
structure GSt where
  foi : GFoi
  msgs : List String
  group : GDict
  score_flag : Bool
deriving DecidableEq, Repr

/-- `TrackingGroups.__update_score` with `update=True`
(customer_tracking_system.py, lines 378-401): parse the mark via the
strict-number path and commit the complete `(mark, polarity)` pair; a
missing mark, or a parse failure, returns `False`. -/
def update_score (P : WParsers) (st : GSt) (g : GDict) : Bool × GSt :=
  match pgetPair g "mark" with
  | some (w, negm) =>
    match word_to_number P w with
    | (some m, ms) =>
      (true, {st with msgs := st.msgs ++ ms, foi := {st.foi with score := some (m, negm)}})
    | (none, ms) => (false, {st with msgs := st.msgs ++ ms})
  | none => (false, st)

/-- Lines 297-319 of `TrackingGroups.update`: the `mark` grouped branch and
the non-grouped branch, mirroring the people-domain logic. -/
def gStepGrouping (P : WParsers) (st : GSt) (k v : String) : Except GSt GSt :=
  if k == "mark" then
    let cont := fun (st : GSt) =>
      let neg := !(pmem st.group "negation")
      let g1 := if !neg then pdel st.group "negation" else st.group
      Except.ok {st with score_flag := true, group := pset g1 k (DVal.p v neg)}
    if st.score_flag && pmem st.group k then
      match update_score P st st.group with
      | (false, st') => Except.error st'
      | (true, st') =>
        let g' : GDict :=
          match st.group.getLast? with
          | some (key, value) => if key == "negation" then [(key, value)] else []
          | none => []
        cont {st' with group := g'}
    else cont st
  else
    if st.score_flag && k == "negation" then
      Except.ok {st with group := pset st.group k (DVal.s v)}
    else if st.score_flag && !(k == "negation") then
      match update_score P st st.group with
      | (false, st') => Except.error st'
      | (true, st') =>
        Except.ok {st' with score_flag := false, group := pset ([] : GDict) k (DVal.s v)}
    else
      Except.ok {st with score_flag := false, group := pset st.group k (DVal.s v)}

/-- Lines 321-325 of `TrackingGroups.update`: eager flush when the buffer
holds a `mark` entry. -/
def gStepEager (P : WParsers) (st : GSt) : Except GSt GSt :=
  if pmem st.group "mark" then
    match update_score P st st.group with
    | (false, st') => Except.error st'
    | (true, st') => Except.ok {st' with group := [], score_flag := false}
  else Except.ok st

/-- One iteration of the entity loop of `TrackingGroups.update`
(lines 292-325). -/
def gStep (P : WParsers) (st : GSt) (e : Entity) : Except GSt GSt :=
  match gStepGrouping P st e.entity e.value with
  | Except.error st' => Except.error st'
  | Except.ok st1 => gStepEager P st1

/-- The entity loop of `TrackingGroups.update` plus the end-of-stream flush
(lines 327-332; on success the buffer is cleared, the flag untouched). -/
def gUpdateGo (P : WParsers) (st : GSt) : List Entity → Except GSt GSt
  | [] =>
    if st.group.isEmpty then Except.ok st
    else
      match update_score P st st.group with
      | (false, st') => Except.error st'
      | (true, st') => Except.ok {st' with group := []}
  | e :: rest =>
    match gStep P st e with
    | Except.error st' => Except.error st'
    | Except.ok st' => gUpdateGo P st' rest

/-- `TrackingGroups.update` (customer_tracking_system.py, lines 271-332). -/
def gUpdate (P : WParsers) (entities : List Entity) (foi₀ : GFoi) :
    Bool × GFoi × List String :=
  match gUpdateGo P ⟨foi₀, [], [], false⟩ entities with
  | Except.ok st => (true, st.foi, st.msgs)
  | Except.error st => (false, st.foi, st.msgs)

/-- One person record of the JSON dataset (`database.json`): the raw fields
read by `TrackingPeople.filteringJSON`; the crossing counts are derived
from `trajectory` at query time, never stored. -/
structure Person where
  gender : String
  bag : Bool
  hat : Bool
  trajectory : List Nat
deriving DecidableEq, Repr

/-- The derived field `person["line{i}_passages"] = person["trajectory"].count(i)`
(customer_tracking_system.py, lines 137-139). -/
def line_passages (p : Person) (i : Nat) : Nat :=
  p.trajectory.count i

/-- The equality conjunction of the first filter of `filteringJSON`
(lines 130-134): every set gender/bag/hat field must match exactly. -/
def matches_ghb (foi : Foi) (p : Person) : Bool :=
  (match foi.gender with | some v => p.gender == v | none => true) &&
  (match foi.bag with | some v => p.bag == v | none => true) &&
  (match foi.hat with | some v => p.hat == v | none => true)

/-- One threshold test of the line filter (line 147):
`count >= bound` when the direction flag is true, `count < bound` otherwise. -/
def threshold_ok (cnt : Nat) (v : Nat × Bool) : Bool :=
  if v.2 then cnt ≥ v.1 else cnt < v.1

/-- The conjunction of the second filter of `filteringJSON` (lines 144-149)
over the four derived crossing counts. -/
def matches_lines (foi : Foi) (p : Person) : Bool :=
  (match foi.line1_passages with | some v => threshold_ok (line_passages p 1) v | none => true) &&
  (match foi.line2_passages with | some v => threshold_ok (line_passages p 2) v | none => true) &&
  (match foi.line3_passages with | some v => threshold_ok (line_passages p 3) v | none => true) &&
  (match foi.line4_passages with | some v => threshold_ok (line_passages p 4) v | none => true)

/-- Python truthiness of `foi_gender_hat_bag` (line 130): at least one of
the first three fields is set. -/
def ghb_set (foi : Foi) : Bool :=
  foi.gender.isSome || foi.bag.isSome || foi.hat.isSome

/-- Python truthiness of `foi_line` (line 144): at least one threshold
field is set. -/
def lines_set (foi : Foi) : Bool :=
  foi.line1_passages.isSome || foi.line2_passages.isSome ||
  foi.line3_passages.isSome || foi.line4_passages.isSome

/-- `TrackingPeople.filteringJSON` (customer_tracking_system.py,
lines 104-154), over a dataset already parsed into `Person` records: first
the equality filter on gender/bag/hat (skipped when no such field is set),
then the threshold filter on the derived crossing counts (skipped when no
threshold field is set). -/
def filteringJSON (foi : Foi) (people : List Person) : List Person :=
  let doi := if ghb_set foi then people.filter (matches_ghb foi) else people
  if lines_set foi then doi.filter (matches_lines foi) else doi

/-- Written from the spec's words (§4.3), for the refinement claim C3: a
record survives exactly when it equals every set gender/bag/hat field and
meets every set `(bound, direction)` threshold on its derived crossing
counts; unset fields impose no constraint. -/
def spec_retains (foi : Foi) (p : Person) : Bool :=
  ((match foi.gender with | some v => p.gender == v | none => true) &&
   (match foi.bag with | some v => p.bag == v | none => true) &&
   (match foi.hat with | some v => p.hat == v | none => true)) &&
  (match foi.line1_passages with | some v => threshold_ok (line_passages p 1) v | none => true) &&
  (match foi.line2_passages with | some v => threshold_ok (line_passages p 2) v | none => true) &&
  (match foi.line3_passages with | some v => threshold_ok (line_passages p 3) v | none => true) &&
  (match foi.line4_passages with | some v => threshold_ok (line_passages p 4) v | none => true)

/-- Claim C1: for the two entity streams `[passages("twice"), line("alpha line")]`
and `[line("alpha line"), passages("twice")]`, `TrackingPeople.update`
succeeds in both cases and commits the same value `(2, true)` to the
alpha-line field of the field-of-interest map, whatever the prior map:
grouping of the quantity and line entities is order-independent. -/
theorem C1_quantity_line_commute (foi₀ : Foi) :
    update defaultLines w2nDigits
        [Entity.mk "passages" "twice", Entity.mk "line" "alpha line"] foi₀ =
      (true, {foi₀ with line1_passages := some (2, true)}, []) ∧
    update defaultLines w2nDigits
        [Entity.mk "line" "alpha line", Entity.mk "passages" "twice"] foi₀ =
      (true, {foi₀ with line1_passages := some (2, true)}, []) :=
  ⟨rfl, rfl⟩

/-- Claim C2: a negation-marker scopes exactly the clause that follows it
and is cleared on resolve: `[negation, clothing("hat")]` sets the has-hat
field to `false`, `[clothing("hat")]` alone sets it to `true`, and after a
standalone resolve the interpreter continues on the remaining entities from
a state with an empty buffer — so a consumed negation never affects a
clothing or gender field resolved in a later clause of the same stream. -/
theorem C2_negation_scope (c : LineCfg) (w2n : String → Option Nat)
    (foi₀ : Foi) (nv gv : String) (rest : List Entity) :
    update c w2n [Entity.mk "negation" nv, Entity.mk "clothing" "hat"] foi₀ =
      (true, {foi₀ with hat := some false}, []) ∧
    update c w2n [Entity.mk "clothing" "hat"] foi₀ =
      (true, {foi₀ with hat := some true}, []) ∧
    updateGo c w2n ⟨foi₀, [], [], false⟩
        (Entity.mk "negation" nv :: Entity.mk "clothing" "hat" :: rest) =
      updateGo c w2n ⟨{foi₀ with hat := some false}, [], [], false⟩ rest ∧
    updateGo c w2n ⟨foi₀, [], [], false⟩
        (Entity.mk "negation" nv :: Entity.mk "gender" gv :: rest) =
      updateGo c w2n
        ⟨{foi₀ with
            gender := some (if gv == "male" then "female" else "male")},
         [], [], false⟩
        rest :=
  ⟨rfl, rfl, rfl, rfl⟩

/-- Claim C7: a line-group containing a line-name entity but no
quantity-adverb entity commits the default quantity 1 with affirmed
polarity: `[line("beta line")]` alone yields `(1, true)` in the beta-line
field, whatever the prior map. -/
theorem C7_default_quantity (foi₀ : Foi) :
    update defaultLines w2nDigits [Entity.mk "line" "beta line"] foi₀ =
      (true, {foi₀ with line2_passages := some (1, true)}, []) :=
  rfl

/-- Claim C8: `TrackingPeople.__update_gender` with affirmed polarity (no
buffered negation) stores the entity value verbatim; with negated polarity
it stores the opposite element of the binary set: a negated `male` stores
`female` and a negated `female` stores `male`. -/
theorem C8_gender_resolve (foi : Foi) (g g' : GDict) (v : String)
    (haff : pmem g "negation" = false) (hneg : pmem g' "negation" = true) :
    update_gender g v foi = {foi with gender := some v} ∧
    update_gender g' "male" foi = {foi with gender := some "female"} ∧
    update_gender g' "female" foi = {foi with gender := some "male"} := by
  unfold update_gender
  rw [haff, hneg]
  simp

/-- Witness for C8 at concrete inputs: an empty buffer for the affirmed
case, a buffer holding a negation-marker for the negated cases. -/
theorem C8_gender_resolve_witness :
    update_gender [] "female" Foi.init = {Foi.init with gender := some "female"} ∧
    update_gender [("negation", DVal.s "not")] "male" Foi.init =
      {Foi.init with gender := some "female"} ∧
    update_gender [("negation", DVal.s "not")] "female" Foi.init =
      {Foi.init with gender := some "male"} :=
  C8_gender_resolve Foi.init [] [("negation", DVal.s "not")] "female"
    (by decide) (by decide)

/-- Claim C10 (implicit): for every negated gender entity whose value is
any string other than `male` — `female`, but also any value outside the
binary set such as `other` — `TrackingPeople.__update_gender` stores the
literal string `male`; only a negated `male` yields `female`. -/
theorem C10_negated_gender_default (foi : Foi) (g : GDict) (v : String)
    (hneg : pmem g "negation" = true) (hv : v ≠ "male") :
    (update_gender g v foi).gender = some "male" ∧
    (update_gender g "male" foi).gender = some "female" := by
  unfold update_gender
  rw [hneg]
  simp [hv]

/-- Witness for C10 at the out-of-domain value `other`. -/
theorem C10_negated_gender_default_witness :
    (update_gender [("negation", DVal.s "not")] "other" Foi.init).gender = some "male" ∧
    (update_gender [("negation", DVal.s "not")] "male" Foi.init).gender = some "female" :=
  C10_negated_gender_default Foi.init [("negation", DVal.s "not")] "other"
    (by decide) (by decide)

/-- Claim C6 counterexample: the input `one time` is none of `once`,
`twice`, nor of the shape `<N> times`, yet `Utils.adverb_to_number`
succeeds on it with 1 instead of failing — so "for every input of any
other shape it fails" is false as stated. -/
theorem C6_counterexample :
    adverb_to_number w2nDigits "one time" = (some 1, []) ∧
    "one time" ≠ "once" ∧ "one time" ≠ "twice" ∧
    pyEndsWith "one time" " times" = false :=
  ⟨rfl, by decide, by decide, by decide⟩

/-- Claim C6 as amended: the adverb-to-count conversion returns 1 for
`once` AND for the additional literal `one time`, 2 for `twice`, and for an
input ending in ` times` the parsed cardinal value of the part before the
first ` times` occurrence (failing with one clarification message echoing
the input when the cardinal parse fails); every input of any other shape
fails, returning `none` after emitting one clarification message that
echoes the input text. -/
theorem C6_adverb_to_number (w2n : String → Option Nat) (a : String) :
    (a = "once" ∨ a = "one time" → adverb_to_number w2n a = (some 1, [])) ∧
    (a = "twice" → adverb_to_number w2n a = (some 2, [])) ∧
    (a ≠ "once" → a ≠ "one time" → a ≠ "twice" → pyEndsWith a " times" = true →
      adverb_to_number w2n a =
        (match w2n (pySplitHead a " times") with
         | some n => (some n, [])
         | none => (none, [invalid_freq_msg a]))) ∧
    (a ≠ "once" → a ≠ "one time" → a ≠ "twice" → pyEndsWith a " times" = false →
      adverb_to_number w2n a = (none, [invalid_freq_msg a])) := by
  refine ⟨?_, ?_, ?_, ?_⟩
  · rintro (rfl | rfl) <;> rfl
  · rintro rfl; rfl
  · intro h1 h2 h3 h4
    simp [adverb_to_number, h1, h2, h3, h4]
  · intro h1 h2 h3 h4
    simp [adverb_to_number, h1, h2, h3, h4]

/-- Witness for C6's amended theorem, one concrete input per case. -/
theorem C6_adverb_to_number_witness :
    adverb_to_number w2nDigits "once" = (some 1, []) ∧
    adverb_to_number w2nDigits "twice" = (some 2, []) ∧
    adverb_to_number w2nDigits "5 times" = (some 5, []) ∧
    adverb_to_number w2nDigits "junk" = (none, [invalid_freq_msg "junk"]) := by
  refine ⟨(C6_adverb_to_number w2nDigits "once").1 (Or.inl rfl),
          (C6_adverb_to_number w2nDigits "twice").2.1 rfl, ?_, ?_⟩
  · exact ((C6_adverb_to_number w2nDigits "5 times").2.2.1
      (by decide) (by decide) (by decide) (by decide)).trans (by decide)
  · exact (C6_adverb_to_number w2nDigits "junk").2.2.2
      (by decide) (by decide) (by decide) (by decide)

/-- Claim C4: a line-group whose line name matches none of the four
configured identifiers (case-insensitively) makes the flush fail after
emitting exactly one clarification message naming the four valid lines,
with the field map untouched by that flush; at stream level, the whole
update is reported as failed while every field committed by earlier
flushes of the same stream — and every prior field — keeps its value
(shown on the stream `[passages(twice), line(alpha line), line(omega line)]`
over an arbitrary prior map). -/
theorem C4_unknown_line (c : LineCfg) (w2n : String → Option Nat) (st : USt)
    (l : String) (b : Bool) (foi₀ : Foi)
    (h1 : pyLower l ≠ c.line_1) (h2 : pyLower l ≠ c.line_2)
    (h3 : pyLower l ≠ c.line_3) (h4 : pyLower l ≠ c.line_4) :
    update_line c w2n st [("line", DVal.p l b)] =
      (false, {st with msgs := st.msgs ++ [unknown_line_msg c l]}) ∧
    update defaultLines w2nDigits
        [Entity.mk "passages" "twice", Entity.mk "line" "alpha line",
         Entity.mk "line" "omega line"] foi₀ =
      (false, {foi₀ with line1_passages := some (2, true)},
       [unknown_line_msg defaultLines "omega line"]) := by
  constructor
  · have hp : pgetPair [("line", DVal.p l b)] "passages" = none := rfl
    have hl : pgetPair [("line", DVal.p l b)] "line" = some (l, b) := rfl
    unfold update_line update_line_core
    rw [hp, hl]
    simp [h1, h2, h3, h4]
  · rfl

/-- Witness for C4 at the spec's `omega line` example. -/
theorem C4_unknown_line_witness :
    update_line defaultLines w2nDigits ⟨Foi.init, [], [], false⟩
        [("line", DVal.p "omega line" true)] =
      (false, ⟨Foi.init, [unknown_line_msg defaultLines "omega line"], [], false⟩) ∧
    update defaultLines w2nDigits
        [Entity.mk "passages" "twice", Entity.mk "line" "alpha line",
         Entity.mk "line" "omega line"] Foi.init =
      (false, {Foi.init with line1_passages := some (2, true)},
       [unknown_line_msg defaultLines "omega line"]) := by
  have h := C4_unknown_line defaultLines w2nDigits ⟨Foi.init, [], [], false⟩
    "omega line" true Foi.init (by decide) (by decide) (by decide) (by decide)
  exact ⟨h.1.trans (by decide), h.2⟩

/-- If the truthiness gate of the gender/bag/hat filter is off, all three
fields are unset. -/
theorem ghb_unset {foi : Foi} (h : ghb_set foi = false) :
    foi.gender = none ∧ foi.bag = none ∧ foi.hat = none := by
  simpa [ghb_set, Option.isSome_iff_ne_none, and_assoc] using h

/-- If the truthiness gate of the threshold filter is off, all four
threshold fields are unset. -/
theorem lines_unset {foi : Foi} (h : lines_set foi = false) :
    foi.line1_passages = none ∧ foi.line2_passages = none ∧
    foi.line3_passages = none ∧ foi.line4_passages = none := by
  simpa [lines_set, Option.isSome_iff_ne_none, and_assoc] using h

/-- The spec-side retention predicate is the conjunction of the two
code-side filter predicates. -/
theorem spec_retains_split (foi : Foi) (q : Person) :
    spec_retains foi q = (matches_ghb foi q && matches_lines foi q) := by
  simp only [spec_retains, matches_ghb, matches_lines, Bool.and_assoc]

/-- The two-stage, gated filter of `filteringJSON` equals one pass of
`List.filter` with the spec-side retention predicate. -/
theorem filteringJSON_eq_filter (foi : Foi) (people : List Person) :
    filteringJSON foi people = people.filter (spec_retains foi) := by
  cases hg : ghb_set foi <;> cases hl : lines_set foi <;>
    simp only [filteringJSON, hg, hl, Bool.false_eq_true, Bool.true_eq_false,
      if_true, if_false, reduceIte]
  · obtain ⟨g1, g2, g3⟩ := ghb_unset hg
    obtain ⟨l1, l2, l3, l4⟩ := lines_unset hl
    refine (List.filter_eq_self.mpr ?_).symm
    intro a _
    simp [spec_retains, g1, g2, g3, l1, l2, l3, l4]
  · obtain ⟨g1, g2, g3⟩ := ghb_unset hg
    refine (List.filter_congr ?_).symm
    intro a _
    rw [spec_retains_split]
    simp [matches_ghb, g1, g2, g3]
  · obtain ⟨l1, l2, l3, l4⟩ := lines_unset hl
    refine (List.filter_congr ?_).symm
    intro a _
    rw [spec_retains_split]
    simp [matches_lines, l1, l2, l3, l4]
  · rw [List.filter_filter]
    refine (List.filter_congr ?_).symm
    intro a _
    rw [spec_retains_split, Bool.and_comm]

/-- Claim C3: for every dataset and every field-of-interest map, the
people-domain filter returns exactly the records that equal every set
gender/bag/hat field and meet every set `(bound, direction)` line
threshold on the derived crossing counts (`>= bound` when the direction is
true, `< bound` when false), unset fields imposing no constraint; being a
`List.filter`, the output preserves dataset order.  With no fields set the
whole dataset is returned, and a person with 3 occurrences of line 1 is
retained under `(2, true)` and excluded under `(2, false)`. -/
theorem C3_people_filter (foi : Foi) (people : List Person) :
    filteringJSON foi people = people.filter (spec_retains foi) ∧
    filteringJSON Foi.init people = people ∧
    filteringJSON {Foi.init with line1_passages := some (2, true)}
        [Person.mk "male" false false [1, 1, 1]] =
      [Person.mk "male" false false [1, 1, 1]] ∧
    filteringJSON {Foi.init with line1_passages := some (2, false)}
        [Person.mk "male" false false [1, 1, 1]] = [] :=
  ⟨filteringJSON_eq_filter foi people, rfl, by decide, by decide⟩

/-- A buffer holding no grouped (`passages`/`line`) entry. -/
def NoPL (g : GDict) : Prop := ∀ e ∈ g, e.1 ≠ "passages" ∧ e.1 ≠ "line"

/-- A key that no entry carries is not a member. -/
theorem pmem_eq_false {g : GDict} {k : String} (h : ∀ e ∈ g, e.1 ≠ k) :
    pmem g k = false := by
  rw [pmem, List.any_eq_false]
  intro e he
  simpa using h e he

/-- Every entry of `pset g k v` is an entry of `g` or the new binding. -/
theorem mem_pset {g : GDict} {k : String} {v : DVal} :
    ∀ e ∈ pset g k v, e ∈ g ∨ e = (k, v) := by
  intro e he
  unfold pset at he
  split at he
  · obtain ⟨a, ha, hfe⟩ := List.mem_map.mp he
    by_cases hk : (a.fst == k) = true
    · right; rw [if_pos hk] at hfe; exact hfe.symm
    · left; rw [if_neg hk] at hfe; exact hfe ▸ ha
  · rcases List.mem_append.mp he with h | h
    · left; exact h
    · right; simpa using h

/-- Inserting a non-grouped key preserves `NoPL`. -/
theorem NoPL_pset {g : GDict} {k : String} {v : DVal}
    (hg : NoPL g) (h1 : k ≠ "passages") (h2 : k ≠ "line") :
    NoPL (pset g k v) := by
  intro e he
  rcases mem_pset e he with h | h
  · exact hg e h
  · rw [h]; exact ⟨h1, h2⟩

/-- A key that is not a member reads as `none`. -/
theorem pgetPair_none {g : GDict} {k : String} (h : pmem g k = false) :
    pgetPair g k = none := by
  unfold pgetPair pget
  have hf : g.find? (fun e => e.fst == k) = none := by
    rw [List.find?_eq_none]
    intro x hx
    have := List.any_eq_false.mp h x hx
    simpa using this
  rw [hf]
  rfl

/-- A dictionary is never empty after an insertion. -/
theorem pset_isEmpty (g : GDict) (k : String) (v : DVal) :
    (pset g k v).isEmpty = false := by
  unfold pset
  split
  · next h =>
    cases g with
    | nil => simp [pmem] at h
    | cons a t => simp
  · cases g <;> simp

/-- The four line-threshold fields of two field maps agree. -/
def linesEq (f f' : Foi) : Prop :=
  f.line1_passages = f'.line1_passages ∧ f.line2_passages = f'.line2_passages ∧
  f.line3_passages = f'.line3_passages ∧ f.line4_passages = f'.line4_passages

/-- Reflexivity of `linesEq`. -/
theorem linesEq_refl (f : Foi) : linesEq f f := ⟨rfl, rfl, rfl, rfl⟩

/-- Transitivity of `linesEq`. -/
theorem linesEq_trans {a b c : Foi} (h1 : linesEq a b) (h2 : linesEq b c) :
    linesEq a c :=
  ⟨h1.1.trans h2.1, h1.2.1.trans h2.2.1, h1.2.2.1.trans h2.2.2.1,
   h1.2.2.2.trans h2.2.2.2⟩

/-- A clothing resolve never touches a line field. -/
theorem update_clothing_lines (g : GDict) (v : String) (foi : Foi) :
    linesEq (update_clothing g v foi) foi := by
  unfold update_clothing
  split_ifs <;> exact ⟨rfl, rfl, rfl, rfl⟩

/-- A gender resolve never touches a line field. -/
theorem update_gender_lines (g : GDict) (v : String) (foi : Foi) :
    linesEq (update_gender g v foi) foi :=
  ⟨rfl, rfl, rfl, rfl⟩

/-- Shape of the standalone-resolve stage when not grouping: the flag
stays down, no message is uttered, line fields are untouched, and the
buffer is cleared exactly when the key dispatches to clothing/gender. -/
theorem stepStandalone_spec (st : USt) (k v : String)
    (hflag : st.line_flag = false) :
    (stepStandalone st k v).line_flag = false ∧
    (stepStandalone st k v).msgs = st.msgs ∧
    linesEq (stepStandalone st k v).foi st.foi ∧
    (stepStandalone st k v).group = (if standalone_key k then [] else st.group) := by
  unfold stepStandalone standalone_key
  rw [hflag]
  cases hc : pyIn "clothing" k
  · cases hgd : pyIn "gender" k
    · simpa [hc, hgd] using ⟨hflag, linesEq_refl st.foi⟩
    · simpa [hc, hgd] using update_gender_lines st.group v st.foi
  · simpa [hc] using update_clothing_lines st.group v st.foi

/-- A loop iteration on a non-grouped entity, from a non-grouping state
with a grouped-free buffer, always succeeds: it inserts the entity and
runs the standalone stage. -/
theorem step_nogroup (c : LineCfg) (w2n : String → Option Nat) (st : USt)
    (e : Entity) (hk1 : e.entity ≠ "passages") (hk2 : e.entity ≠ "line")
    (hflag : st.line_flag = false) (hg : NoPL st.group) :
    updateStep c w2n st e =
      Except.ok (stepStandalone
        {st with line_flag := false, group := pset st.group e.entity (DVal.s e.value)}
        e.entity e.value) := by
  have e1 : (e.entity == "passages") = false := beq_eq_false_iff_ne.mpr hk1
  have e2 : (e.entity == "line") = false := beq_eq_false_iff_ne.mpr hk2
  have hsg : stepGrouping c w2n st e.entity e.value =
      Except.ok {st with line_flag := false,
                         group := pset st.group e.entity (DVal.s e.value)} := by
    unfold stepGrouping
    rw [e1, e2, hflag]
    simp
  have hne : pmem (pset st.group e.entity (DVal.s e.value)) "passages" = false :=
    pmem_eq_false (fun x hx => (NoPL_pset hg hk1 hk2 x hx).1)
  have hse : stepEager c w2n
      {st with line_flag := false,
               group := pset st.group e.entity (DVal.s e.value)} =
      Except.ok {st with line_flag := false,
                         group := pset st.group e.entity (DVal.s e.value)} := by
    unfold stepEager
    simp only [hne, Bool.false_and, Bool.false_eq_true, if_false, reduceIte]
  unfold updateStep
  rw [hsg]
  simp only []
  rw [hse]

/-- Whether a grouped-free run leaves an empty buffer at end of stream:
the stream is empty and the buffer started empty, or the last entity
dispatches to a standalone clothing/gender resolve. -/
def ends_clear (g : GDict) (es : List Entity) : Bool :=
  match es.getLast? with
  | some e => standalone_key e.entity
  | none => g.isEmpty

/-- Flushing a grouped-free, non-empty buffer at end of stream fails with
the missing-line clarification and leaves the field map untouched. -/
theorem update_line_nopl (c : LineCfg) (w2n : String → Option Nat) (st : USt)
    (hg : NoPL st.group) :
    update_line c w2n st st.group =
      (false, {st with msgs := st.msgs ++ [point_msg c]}) := by
  have hp : pgetPair st.group "passages" = none :=
    pgetPair_none (pmem_eq_false (fun x hx => (hg x hx).1))
  have hl : pgetPair st.group "line" = none :=
    pgetPair_none (pmem_eq_false (fun x hx => (hg x hx).2))
  unfold update_line
  rw [hp]
  unfold update_line_core
  rw [hl]

/-- Main induction for C5: on a stream with no grouped kinds the loop
never fails mid-stream, utters no message and never touches a line field;
the run succeeds exactly when the final buffer is empty, and otherwise
fails at the end-of-stream flush with exactly the one missing-line
clarification. -/
theorem go_nogroup (c : LineCfg) (w2n : String → Option Nat) (es : List Entity) :
    ∀ st : USt,
      (∀ e ∈ es, e.entity ≠ "passages" ∧ e.entity ≠ "line") →
      st.line_flag = false → NoPL st.group →
      (ends_clear st.group es = true →
        ∃ st', updateGo c w2n st es = Except.ok st' ∧
          st'.msgs = st.msgs ∧ linesEq st'.foi st.foi) ∧
      (ends_clear st.group es = false →
        ∃ st', updateGo c w2n st es = Except.error st' ∧
          st'.msgs = st.msgs ++ [point_msg c] ∧ linesEq st'.foi st.foi) := by
  induction es with
  | nil =>
    intro st _ hflag hg
    constructor
    · intro hend
      refine ⟨st, ?_, rfl, linesEq_refl _⟩
      have : st.group.isEmpty = true := hend
      unfold updateGo
      rw [this]
      simp
    · intro hend
      have hemp : st.group.isEmpty = false := hend
      refine ⟨{st with msgs := st.msgs ++ [point_msg c]}, ?_, rfl, linesEq_refl _⟩
      unfold updateGo
      rw [hemp, update_line_nopl c w2n st hg]
      simp
  | cons e rest ih =>
    intro st hes hflag hg
    have he : e.entity ≠ "passages" ∧ e.entity ≠ "line" :=
      hes e (List.mem_cons_self e rest)
    have hrest : ∀ x ∈ rest, x.entity ≠ "passages" ∧ x.entity ≠ "line" :=
      fun x hx => hes x (List.mem_cons_of_mem e hx)
    have hstep := step_nogroup c w2n st e he.1 he.2 hflag hg
    obtain ⟨hfl1, hmsg1, hlines1, hgrp1⟩ := stepStandalone_spec
      {st with line_flag := false, group := pset st.group e.entity (DVal.s e.value)}
      e.entity e.value rfl
    set st1 := stepStandalone
      {st with line_flag := false, group := pset st.group e.entity (DVal.s e.value)}
      e.entity e.value with hst1
    have hg1 : NoPL st1.group := by
      rw [hgrp1]
      split
      · intro x hx
        cases hx
      · exact NoPL_pset hg he.1 he.2
    have hec : ends_clear st.group (e :: rest) = ends_clear st1.group rest := by
      cases rest with
      | nil =>
        show standalone_key e.entity = st1.group.isEmpty
        rw [hgrp1]
        cases hsk : standalone_key e.entity
        · simp [hsk, pset_isEmpty]
        · simp [hsk]
      | cons f t =>
        show ends_clear st.group (e :: f :: t) = ends_clear st1.group (f :: t)
        unfold ends_clear
        rw [List.getLast?_cons_cons]
        cases hgl : (f :: t).getLast? with
        | none => simp [List.getLast?_eq_none_iff] at hgl
        | some x => rfl
    have hgo : updateGo c w2n st (e :: rest) = updateGo c w2n st1 rest := by
      unfold updateGo
      rw [hstep]
      cases rest <;> rfl
    have IH := ih st1 hrest hfl1 hg1
    constructor
    · intro hend
      rw [hec] at hend
      obtain ⟨st', h1, h2, h3⟩ := IH.1 hend
      exact ⟨st', by rw [hgo]; exact h1, by rw [h2, hmsg1],
        linesEq_trans h3 hlines1⟩
    · intro hend
      rw [hec] at hend
      obtain ⟨st', h1, h2, h3⟩ := IH.2 hend
      exact ⟨st', by rw [hgo]; exact h1, by rw [h2, hmsg1],
        linesEq_trans h3 hlines1⟩

/-- Claim C5 counterexample: the stream `[negation]` contains no
grouped-kind entity, yet `TrackingPeople.update` returns `false` and emits
a clarification message — the unconsumed negation-marker is left in the
buffer and the end-of-stream flush fails for want of a line name.  The
claim as stated (such a stream always returns true and never emits an
error) is false. -/
theorem C5_counterexample :
    update defaultLines w2nDigits [Entity.mk "negation" "not"] Foi.init =
      (false, Foi.init, [point_msg defaultLines]) := by decide

/-- Claim C5 as amended: for every entity stream containing no
grouped-kind entities, `TrackingPeople.update` never touches the four line
fields of the field-of-interest map; it returns true exactly when the
stream leaves an empty buffer — the stream is empty or its last entity is
a clothing/gender one — and otherwise (in particular when the stream ends
with an unconsumed negation-marker) it returns false after emitting
exactly one missing-line clarification message. -/
theorem C5_amended (c : LineCfg) (w2n : String → Option Nat) (foi₀ : Foi)
    (es : List Entity)
    (h : ∀ e ∈ es, e.entity ≠ "passages" ∧ e.entity ≠ "line") :
    ((update c w2n es foi₀).2.1.line1_passages = foi₀.line1_passages ∧
     (update c w2n es foi₀).2.1.line2_passages = foi₀.line2_passages ∧
     (update c w2n es foi₀).2.1.line3_passages = foi₀.line3_passages ∧
     (update c w2n es foi₀).2.1.line4_passages = foi₀.line4_passages) ∧
    (update c w2n es foi₀).1 = ends_clear [] es ∧
    (update c w2n es foi₀).2.2 =
      (if ends_clear [] es then [] else [point_msg c]) := by
  have h0 := go_nogroup c w2n es ⟨foi₀, [], [], false⟩ h rfl
    (fun x hx => by cases hx)
  cases hend : ends_clear ([] : GDict) es with
  | true =>
    obtain ⟨st', h1, h2, h3⟩ := h0.1 hend
    have hu : update c w2n es foi₀ = (true, st'.foi, st'.msgs) := by
      unfold update
      rw [h1]
    obtain ⟨l1, l2, l3, l4⟩ := h3
    rw [hu]
    simp [l1, l2, l3, l4, h2]
  | false =>
    obtain ⟨st', h1, h2, h3⟩ := h0.2 hend
    have hu : update c w2n es foi₀ = (false, st'.foi, st'.msgs) := by
      unfold update
      rw [h1]
    obtain ⟨l1, l2, l3, l4⟩ := h3
    rw [hu]
    simp [l1, l2, l3, l4, h2]

/-- Witness for C5 at the spec's own boundary case, a stream that is one
unconsumed negation-marker. -/
theorem C5_amended_witness :
    ((update defaultLines w2nDigits [Entity.mk "negation" "not"] Foi.init).2.1.line1_passages = Foi.init.line1_passages ∧
     (update defaultLines w2nDigits [Entity.mk "negation" "not"] Foi.init).2.1.line2_passages = Foi.init.line2_passages ∧
     (update defaultLines w2nDigits [Entity.mk "negation" "not"] Foi.init).2.1.line3_passages = Foi.init.line3_passages ∧
     (update defaultLines w2nDigits [Entity.mk "negation" "not"] Foi.init).2.1.line4_passages = Foi.init.line4_passages) ∧
    (update defaultLines w2nDigits [Entity.mk "negation" "not"] Foi.init).1 =
      ends_clear [] [Entity.mk "negation" "not"] ∧
    (update defaultLines w2nDigits [Entity.mk "negation" "not"] Foi.init).2.2 =
      (if ends_clear [] [Entity.mk "negation" "not"] then []
       else [point_msg defaultLines]) :=
  C5_amended defaultLines w2nDigits Foi.init [Entity.mk "negation" "not"]
    (by decide)

/-- A line-threshold field after an operation: either unchanged or a
complete `(bound, direction)` pair. -/
def line_pres (a b : Option (Nat × Bool)) : Prop :=
  b = a ∨ ∃ p d, b = some (p, d)

/-- Reflexivity of `line_pres`. -/
theorem line_pres_refl (a : Option (Nat × Bool)) : line_pres a a := Or.inl rfl

/-- Transitivity of `line_pres`. -/
theorem line_pres_trans {a b c : Option (Nat × Bool)}
    (h1 : line_pres a b) (h2 : line_pres b c) : line_pres a c := by
  rcases h2 with rfl | h2
  · exact h1
  · exact Or.inr h2

/-- All four line-threshold fields are preserved-or-completely-written. -/
def foi_pres (f f' : Foi) : Prop :=
  line_pres f.line1_passages f'.line1_passages ∧
  line_pres f.line2_passages f'.line2_passages ∧
  line_pres f.line3_passages f'.line3_passages ∧
  line_pres f.line4_passages f'.line4_passages

/-- Reflexivity of `foi_pres`. -/
theorem foi_pres_refl (f : Foi) : foi_pres f f :=
  ⟨line_pres_refl _, line_pres_refl _, line_pres_refl _, line_pres_refl _⟩

/-- Transitivity of `foi_pres`. -/
theorem foi_pres_trans {a b c : Foi} (h1 : foi_pres a b) (h2 : foi_pres b c) :
    foi_pres a c :=
  ⟨line_pres_trans h1.1 h2.1, line_pres_trans h1.2.1 h2.2.1,
   line_pres_trans h1.2.2.1 h2.2.2.1, line_pres_trans h1.2.2.2 h2.2.2.2⟩

/-- The state carried by either outcome of a people-interpreter step. -/
def exUSt : Except USt USt → USt
  | Except.ok s => s
  | Except.error s => s

/-- Each branch of the line-matching flush either leaves a threshold
field alone or writes a complete pair. -/
theorem update_line_core_pres (c : LineCfg) (st : USt) (g : GDict)
    (p : Nat) (np : Bool) :
    foi_pres st.foi ((update_line_core c st g p np).2).foi := by
  unfold update_line_core
  cases hl : pgetPair g "line" with
  | none => exact foi_pres_refl _
  | some lv =>
    obtain ⟨l, nl⟩ := lv
    simp only []
    split_ifs
    · exact ⟨Or.inr ⟨p, np && nl, rfl⟩, Or.inl rfl, Or.inl rfl, Or.inl rfl⟩
    · exact ⟨Or.inl rfl, Or.inr ⟨p, np && nl, rfl⟩, Or.inl rfl, Or.inl rfl⟩
    · exact ⟨Or.inl rfl, Or.inl rfl, Or.inr ⟨p, np && nl, rfl⟩, Or.inl rfl⟩
    · exact ⟨Or.inl rfl, Or.inl rfl, Or.inl rfl, Or.inr ⟨p, np && nl, rfl⟩⟩
    · exact foi_pres_refl _

/-- The full line flush preserves-or-completely-writes every threshold
field. -/
theorem update_line_pres (c : LineCfg) (w2n : String → Option Nat) (st : USt)
    (g : GDict) :
    foi_pres st.foi ((update_line c w2n st g).2).foi := by
  unfold update_line
  cases hp : pgetPair g "passages" with
  | none => exact update_line_core_pres c st g 1 true
  | some av =>
    obtain ⟨adv, np⟩ := av
    simp only []
    cases ha : adverb_to_number w2n adv with
    | mk r ms =>
      cases r with
      | some n => exact update_line_core_pres c {st with msgs := st.msgs ++ ms} g n np
      | none => exact foi_pres_refl _

/-- The grouped/non-grouped dispatch stage preserves-or-completely-writes
every threshold field. -/
theorem stepGrouping_pres (c : LineCfg) (w2n : String → Option Nat) (st : USt)
    (k v : String) :
    foi_pres st.foi (exUSt (stepGrouping c w2n st k v)).foi := by
  unfold stepGrouping
  split
  · split
    · cases hu : update_line c w2n st st.group with
      | mk b st' =>
        have hp := update_line_pres c w2n st st.group
        rw [hu] at hp
        cases b
        · exact hp
        · exact hp
    · exact foi_pres_refl _
  · split
    · exact foi_pres_refl _
    · split
      · cases hu : update_line c w2n st st.group with
        | mk b st' =>
          have hp := update_line_pres c w2n st st.group
          rw [hu] at hp
          cases b
          · exact hp
          · exact hp
      · exact foi_pres_refl _

/-- Untouched line fields satisfy the preservation disjunction. -/
theorem foi_pres_of_linesEq {f f' : Foi} (h : linesEq f' f) : foi_pres f f' :=
  ⟨Or.inl h.1, Or.inl h.2.1, Or.inl h.2.2.1, Or.inl h.2.2.2⟩

/-- The eager-flush stage preserves-or-completely-writes every threshold
field. -/
theorem stepEager_pres (c : LineCfg) (w2n : String → Option Nat) (st : USt) :
    foi_pres st.foi (exUSt (stepEager c w2n st)).foi := by
  unfold stepEager
  split
  · cases hu : update_line c w2n st st.group with
    | mk b st' =>
      have hp := update_line_pres c w2n st st.group
      rw [hu] at hp
      cases b
      · exact hp
      · exact hp
  · exact foi_pres_refl _

/-- The standalone-resolve stage never touches a threshold field. -/
theorem stepStandalone_pres (st : USt) (k v : String) :
    foi_pres st.foi (stepStandalone st k v).foi := by
  unfold stepStandalone
  split
  · split
    · exact foi_pres_of_linesEq (update_clothing_lines st.group v st.foi)
    · split
      · exact foi_pres_of_linesEq (update_gender_lines st.group v st.foi)
      · exact foi_pres_refl _
  · exact foi_pres_refl _

/-- One loop iteration preserves-or-completely-writes every threshold
field. -/
theorem updateStep_pres (c : LineCfg) (w2n : String → Option Nat) (st : USt)
    (e : Entity) :
    foi_pres st.foi (exUSt (updateStep c w2n st e)).foi := by
  unfold updateStep
  cases hg : stepGrouping c w2n st e.entity e.value with
  | error st' =>
    have h := stepGrouping_pres c w2n st e.entity e.value
    rw [hg] at h
    exact h
  | ok st1 =>
    dsimp only
    have h1 : foi_pres st.foi st1.foi := by
      have h := stepGrouping_pres c w2n st e.entity e.value
      rw [hg] at h
      exact h
    cases he : stepEager c w2n st1 with
    | error st' =>
      have h2 := stepEager_pres c w2n st1
      rw [he] at h2
      exact foi_pres_trans h1 h2
    | ok st2 =>
      have h2 := stepEager_pres c w2n st1
      rw [he] at h2
      exact foi_pres_trans h1
        (foi_pres_trans h2 (stepStandalone_pres st2 e.entity e.value))

/-- The whole people-interpreter run (loop plus final flush), on success
or on failure, preserves-or-completely-writes every threshold field. -/
theorem updateGo_pres (c : LineCfg) (w2n : String → Option Nat)
    (es : List Entity) : ∀ st : USt,
    foi_pres st.foi (exUSt (updateGo c w2n st es)).foi := by
  induction es with
  | nil =>
    intro st
    unfold updateGo
    split
    · exact foi_pres_refl _
    · cases hu : update_line c w2n st st.group with
      | mk b st' =>
        have hp := update_line_pres c w2n st st.group
        rw [hu] at hp
        cases b
        · exact hp
        · exact hp
  | cons e rest ih =>
    intro st
    unfold updateGo
    cases hs : updateStep c w2n st e with
    | error st' =>
      have h := updateStep_pres c w2n st e
      rw [hs] at h
      exact h
    | ok st1 =>
      have h1 : foi_pres st.foi st1.foi := by
        have h := updateStep_pres c w2n st e
        rw [hs] at h
        exact h
      exact foi_pres_trans h1 (ih st1)

/-- The score-threshold field after an operation: either unchanged or a
complete `(bound, direction)` pair. -/
def score_pres (a b : Option (Rat × Bool)) : Prop :=
  b = a ∨ ∃ m d, b = some (m, d)

/-- Reflexivity of `score_pres`. -/
theorem score_pres_refl (a : Option (Rat × Bool)) : score_pres a a := Or.inl rfl

/-- Transitivity of `score_pres`. -/
theorem score_pres_trans {a b c : Option (Rat × Bool)}
    (h1 : score_pres a b) (h2 : score_pres b c) : score_pres a c := by
  rcases h2 with rfl | h2
  · exact h1
  · exact Or.inr h2

/-- The state carried by either outcome of a group-interpreter step. -/
def exGSt : Except GSt GSt → GSt
  | Except.ok s => s
  | Except.error s => s

/-- The score flush either leaves the score field alone or writes a
complete `(mark, polarity)` pair. -/
theorem update_score_pres (P : WParsers) (st : GSt) (g : GDict) :
    score_pres st.foi.score ((update_score P st g).2).foi.score := by
  unfold update_score
  cases hm : pgetPair g "mark" with
  | none => exact Or.inl rfl
  | some wv =>
    obtain ⟨w, nm⟩ := wv
    simp only []
    cases hw : word_to_number P w with
    | mk r ms =>
      cases r with
      | some m => exact Or.inr ⟨m, nm, rfl⟩
      | none => exact Or.inl rfl

/-- The group-domain dispatch stage preserves-or-completely-writes the
score field. -/
theorem gStepGrouping_pres (P : WParsers) (st : GSt) (k v : String) :
    score_pres st.foi.score (exGSt (gStepGrouping P st k v)).foi.score := by
  unfold gStepGrouping
  split
  · split
    · cases hu : update_score P st st.group with
      | mk b st' =>
        have hp := update_score_pres P st st.group
        rw [hu] at hp
        cases b
        · exact hp
        · exact hp
    · exact score_pres_refl _
  · split
    · exact score_pres_refl _
    · split
      · cases hu : update_score P st st.group with
        | mk b st' =>
          have hp := update_score_pres P st st.group
          rw [hu] at hp
          cases b
          · exact hp
          · exact hp
      · exact score_pres_refl _

/-- The group-domain eager flush preserves-or-completely-writes the score
field. -/
theorem gStepEager_pres (P : WParsers) (st : GSt) :
    score_pres st.foi.score (exGSt (gStepEager P st)).foi.score := by
  unfold gStepEager
  split
  · cases hu : update_score P st st.group with
    | mk b st' =>
      have hp := update_score_pres P st st.group
      rw [hu] at hp
      cases b
      · exact hp
      · exact hp
  · exact score_pres_refl _

/-- One group-domain loop iteration preserves-or-completely-writes the
score field. -/
theorem gStep_pres (P : WParsers) (st : GSt) (e : Entity) :
    score_pres st.foi.score (exGSt (gStep P st e)).foi.score := by
  unfold gStep
  cases hg : gStepGrouping P st e.entity e.value with
  | error st' =>
    have h := gStepGrouping_pres P st e.entity e.value
    rw [hg] at h
    exact h
  | ok st1 =>
    have h1 : score_pres st.foi.score st1.foi.score := by
      have h := gStepGrouping_pres P st e.entity e.value
      rw [hg] at h
      exact h
    have h2 := gStepEager_pres P st1
    exact score_pres_trans h1 h2

/-- The whole group-interpreter run preserves-or-completely-writes the
score field. -/
theorem gUpdateGo_pres (P : WParsers) (es : List Entity) : ∀ st : GSt,
    score_pres st.foi.score (exGSt (gUpdateGo P st es)).foi.score := by
  induction es with
  | nil =>
    intro st
    unfold gUpdateGo
    split
    · exact score_pres_refl _
    · cases hu : update_score P st st.group with
      | mk b st' =>
        have hp := update_score_pres P st st.group
        rw [hu] at hp
        cases b
        · exact hp
        · exact hp
  | cons e rest ih =>
    intro st
    unfold gUpdateGo
    cases hs : gStep P st e with
    | error st' =>
      have h := gStep_pres P st e
      rw [hs] at h
      exact h
    | ok st1 =>
      have h1 : score_pres st.foi.score st1.foi.score := by
        have h := gStep_pres P st e
        rw [hs] at h
        exact h
      exact score_pres_trans h1 (ih st1)

/-- Claim C9: invariant preserved by every interpreter operation — after
any sequence of updates (any entity stream, any prior map, in both the
people and the group domain) each threshold field (the four line-passage
fields and the group score field) is either exactly its prior value or a
complete pair of a numeric bound and a direction flag, never half-formed;
in the embedding the field type itself admits only unset or a complete
pair, and this theorem shows every write made by an update is such a
complete pair. -/
theorem C9_threshold_fields_complete (c : LineCfg) (w2n : String → Option Nat)
    (es : List Entity) (foi₀ : Foi) (P : WParsers) (gs : List Entity)
    (g₀ : GFoi) :
    (line_pres foi₀.line1_passages (update c w2n es foi₀).2.1.line1_passages ∧
     line_pres foi₀.line2_passages (update c w2n es foi₀).2.1.line2_passages ∧
     line_pres foi₀.line3_passages (update c w2n es foi₀).2.1.line3_passages ∧
     line_pres foi₀.line4_passages (update c w2n es foi₀).2.1.line4_passages) ∧
    score_pres g₀.score (gUpdate P gs g₀).2.1.score := by
  have hu : (update c w2n es foi₀).2.1 =
      (exUSt (updateGo c w2n ⟨foi₀, [], [], false⟩ es)).foi := by
    unfold update
    cases updateGo c w2n ⟨foi₀, [], [], false⟩ es <;> rfl
  have hg : (gUpdate P gs g₀).2.1 =
      (exGSt (gUpdateGo P ⟨g₀, [], [], false⟩ gs)).foi := by
    unfold gUpdate
    cases gUpdateGo P ⟨g₀, [], [], false⟩ gs <;> rfl
  rw [hu, hg]
  exact ⟨updateGo_pres c w2n es ⟨foi₀, [], [], false⟩,
    gUpdateGo_pres P gs ⟨g₀, [], [], false⟩⟩
